import Mathlib

/-!
Shallow embedding of the quiz lifecycle engine of src/server.js (an
Express backend): quiz generation from a text-generation collaborator
response, in-memory storage, submission grading, and result
aggregation.  External effects (HTTP transport, the model call, the
clock, the random id) are modelled as explicit inputs.  JavaScript
numbers that can be NaN are modelled as Option Nat with none for NaN.
-/

set_option autoImplicit false
set_option maxRecDepth 10000

/-- JSON values as produced by the JavaScript builtin JSON.parse.
Numbers are modelled as integers: every number occurring in the quiz
data handled by the server (answer indices, scores) is integral. -/
inductive Json : Type
  | null : Json
  | bool : Bool → Json
  | num : Int → Json
  | str : String → Json
  | arr : List Json → Json
  | obj : List (String × Json) → Json

instance : Inhabited Json := ⟨Json.null⟩

/-- JavaScript property access o.name (as in q.question, q.options,
q.correctAnswer in server.js): undefined (none) unless o is an object
carrying the field.  JSON.parse output has at most one binding per key,
so taking the first binding is faithful. -/
def getField : Json → String → Option Json
  | Json.obj fields, name => fields.lookup name
  | _, _ => none

/-- JavaScript strict equality between two values that originate from
different JSON.parse results (the request body and the stored quiz), so
arrays and objects are distinct references and never strictly equal;
primitives compare by value. -/
def jsPrimEq : Json → Json → Bool
  | Json.null, Json.null => true
  | Json.bool a, Json.bool b => a == b
  | Json.num a, Json.num b => a == b
  | Json.str a, Json.str b => a == b
  | _, _ => false

/-- Strict equality where either side may be the JavaScript undefined
(none); undefined === undefined evaluates to true. -/
def jsEqOpt : Option Json → Option Json → Bool
  | none, none => true
  | some a, some b => jsPrimEq a b
  | _, _ => false

/-- One entry of the per-question result list built by POST /submit-quiz:
questionId, question, studentAnswer, correctAnswer, isCorrect. -/
structure GradeEntry where
  questionId : Nat
  question : Option Json
  studentAnswer : Option Json
  correctAnswer : Option Json
  isCorrect : Bool

/-- The result entry for question q at index idx, grading the request's
answers: studentAnswer is answers[idx] (undefined when idx is out of
range), and isCorrect is the strict comparison with q.correctAnswer. -/
def gradeEntry (idx : Nat) (q : Json) (answers : List Json) : GradeEntry :=
  { questionId := idx
    question := getField q "question"
    studentAnswer := answers.get? idx
    correctAnswer := getField q "correctAnswer"
    isCorrect := jsEqOpt (answers.get? idx) (getField q "correctAnswer") }

/-- The per-question result list: quiz.questions.map((q, idx) => ...),
written as a recursion carrying the running index. -/
def gradeFrom (answers : List Json) : Nat → List Json → List GradeEntry
  | _, [] => []
  | idx, q :: rest => gradeEntry idx q answers :: gradeFrom answers (idx + 1) rest

/-- The full result list of a submission (indices start at 0). -/
def gradeResults (questions answers : List Json) : List GradeEntry :=
  gradeFrom answers 0 questions

/-- correctCount: the counter incremented once per result entry whose
isCorrect is true during the grading pass. -/
def correctCount (questions answers : List Json) : Nat :=
  (gradeResults questions answers).countP (fun e => e.isCorrect)

/-- Floor of the base-2 logarithm, with a structural fuel argument so
that concrete values reduce inside the kernel (the value at least
halves each step, so fuel n suffices). -/
def log2fuel : Nat → Nat → Nat
  | 0, _ => 0
  | fuel + 1, n => if n ≤ 1 then 0 else log2fuel fuel (n / 2) + 1

def natLog2 (n : Nat) : Nat := log2fuel n n

/-- The integer nearest to a / b (b positive), ties to even: the IEEE
round-to-nearest-even rule applied on an integer grid. -/
def rndeDiv (a b : Nat) : Nat :=
  let n := a / b
  let r := a % b
  if 2 * r < b then n
  else if b < 2 * r then n + 1
  else if n % 2 = 0 then n else n + 1

/-- The exponent e with 2^e ≤ a / b < 2^(e+1), for positive a and b. -/
def ratExp (a b : Nat) : Int :=
  let e0 : Int := (natLog2 a : Int) - (natLog2 b : Int)
  if b * 2 ^ (max 0 e0).toNat ≤ a * 2 ^ (max 0 (-e0)).toNat then e0
  else e0 - 1

/-- The rational a / b rounded to the nearest binary64 floating-point
value (round to nearest, ties to even, subnormals included), as a
significand-exponent pair m, s standing for m * 2^s; none is overflow
to Infinity.  This is the exact double produced by the JavaScript
division of the integers a and b. -/
def flRat (a b : Nat) : Option (Nat × Int) :=
  let e := ratExp a b
  let scale := max (e - 52) (-1074)
  let m := rndeDiv (a * 2 ^ (max 0 (-scale)).toNat)
    (b * 2 ^ (max 0 scale).toNat)
  if 1024 ≤ (natLog2 m : Int) + scale then none else some (m, scale)

/-- The double x * 100 for a nonnegative binary64 value x = m * 2^s:
the exact product rounded back to binary64. -/
def flMul100 (x : Nat × Int) : Option (Nat × Int) :=
  if x.1 = 0 then some (0, 0)
  else flRat (100 * x.1 * 2 ^ (max 0 x.2).toNat) (2 ^ (max 0 (-x.2)).toNat)

/-- Math.round on a nonnegative double m * 2^s: the integer nearest to
its exact value, half-way cases rounded toward positive infinity. -/
def jsRoundDyadic (x : Nat × Int) : Nat :=
  if 0 ≤ x.2 then x.1 * 2 ^ x.2.toNat
  else (2 * x.1 + 2 ^ (-x.2).toNat) / (2 * 2 ^ (-x.2).toNat)

/-- Math.round((c / t) * 100) as /submit-quiz computes it in binary64:
c / t is rounded to the nearest double, the product with 100 is rounded
to the nearest double again, and Math.round then rounds the exact value
of that double half up.  The two intermediate roundings make the result
differ from exact round-half-up of 100*c/t at some inputs: 23 of 40
questions gives (23/40)*100 = 57.49999999999999 and score 57, not
round(57.5) = 58.  When t = 0 the code evaluates Math.round((0/0) *
100) = NaN, modelled as none (c counts over t questions, so c = 0
whenever t = 0); none also covers the unreachable infinite results. -/
def scoreOf (c t : Nat) : Option Nat :=
  if t = 0 then none
  else
    match flRat c t with
    | none => none
    | some x =>
      match flMul100 x with
      | none => none
      | some y => some (jsRoundDyadic y)

/-- A stored submission record (submittedAt is the ISO timestamp
string, supplied as an input in this embedding). -/
structure Submission where
  studentName : String
  answers : List Json
  score : Option Nat
  correctCount : Nat
  totalQuestions : Nat
  submittedAt : String

/-- A stored quiz record: quizzes[quizId] = { roomName, topic,
questions, submissions, createdAt }. -/
structure Quiz where
  roomName : String
  topic : String
  questions : List Json
  submissions : List Submission
  createdAt : String

/-- The in-memory quizzes object, as an association list with unique
keys. -/
abbrev Store := List (String × Quiz)

/-- Reading quizzes[id]. -/
def storeLookup (store : Store) (id : String) : Option Quiz :=
  store.lookup id

/-- Writing quizzes[id] = q: overwrites the existing binding in place
when the key is present, otherwise adds a new binding. -/
def storeSet (store : Store) (id : String) (q : Quiz) : Store :=
  if (store.lookup id).isSome then
    store.map (fun p => if p.1 = id then (id, q) else p)
  else
    store ++ [(id, q)]

/-- The property names a plain object literal inherits from
Object.prototype.  Reading quizzes[quizId] at one of these names when
quizId is not a stored key yields the inherited value (a function, or
the prototype object itself for __proto__), which is truthy but not a
quiz record.  (Store writes are unaffected: they create own
properties, and the generated quiz ids never hit the __proto__
setter.) -/
def protoKeys : List String :=
  ["constructor", "hasOwnProperty", "isPrototypeOf",
   "propertyIsEnumerable", "toLocaleString", "toString", "valueOf",
   "__proto__", "__defineGetter__", "__defineSetter__",
   "__lookupGetter__", "__lookupSetter__"]

/-- What the JavaScript read quizzes[quizId] can produce. -/
inductive StoreRead : Type
  | quizVal : Quiz → StoreRead
  | inherited : StoreRead
  | undef : StoreRead

/-- quizzes[quizId]: an own entry when the key is stored; otherwise a
truthy inherited value for the Object.prototype property names, and
undefined for every other absent key. -/
def storeRead (store : Store) (id : String) : StoreRead :=
  match storeLookup store id with
  | some q => StoreRead.quizVal q
  | none =>
    if id ∈ protoKeys then StoreRead.inherited else StoreRead.undef

/-- The successful response body of POST /submit-quiz. -/
structure SubmitPayload where
  score : Option Nat
  correctCount : Nat
  totalQuestions : Nat
  results : List GradeEntry

/-- Outcome of POST /submit-quiz: 400 when a required body field is
falsy, 404 when quizzes[quizId] is undefined, 500 when the handler
throws (the read yields a truthy inherited non-quiz value, so the
truthiness check passes and quiz.questions.map raises a TypeError that
the route's catch turns into the generic error), 200 with the grading
payload otherwise. -/
inductive SubmitOutcome : Type
  | badRequest : SubmitOutcome
  | notFound : SubmitOutcome
  | serverError : SubmitOutcome
  | ok : SubmitPayload → SubmitOutcome

/-- POST /submit-quiz.  The body fields are Option-typed: none models
an absent or otherwise falsy field (for quizId and studentName the
empty string is also falsy and rejected; an answers array is always
truthy, even when empty).  Returns the outcome and the store after the
call. -/
def submitQuiz (store : Store) (quizId studentName : Option String)
    (answers : Option (List Json)) (submittedAt : String) :
    SubmitOutcome × Store :=
  match quizId, studentName, answers with
  | some qid, some name, some ans =>
    if qid = "" ∨ name = "" then (SubmitOutcome.badRequest, store)
    else
      match storeRead store qid with
      | StoreRead.undef => (SubmitOutcome.notFound, store)
      | StoreRead.inherited => (SubmitOutcome.serverError, store)
      | StoreRead.quizVal quiz =>
        let results := gradeResults quiz.questions ans
        let cc := correctCount quiz.questions ans
        let total := quiz.questions.length
        let score := scoreOf cc total
        let sub : Submission :=
          { studentName := name, answers := ans, score := score
            correctCount := cc, totalQuestions := total
            submittedAt := submittedAt }
        let quiz' := { quiz with submissions := quiz.submissions ++ [sub] }
        (SubmitOutcome.ok ⟨score, cc, total, results⟩, storeSet store qid quiz')
  | _, _, _ => (SubmitOutcome.badRequest, store)

/-! ## Specification-side definitions and bridging lemmas -/

/-- Round half up of a nonnegative rational: the rounding function the
spec writes as round, agreeing with Math.round on nonnegative inputs. -/
def specRound (q : ℚ) : Nat := ⌊q + 1 / 2⌋₊

/-- Natural division (2*a + b) / (2*b) computes round-half-up of a/b. -/
theorem natDiv_eq_specRound (a b : Nat) (hb : 0 < b) :
    (2 * a + b) / (2 * b) = specRound ((a : ℚ) / (b : ℚ)) := by
  unfold specRound
  have hb' : (b : ℚ) ≠ 0 := Nat.cast_ne_zero.mpr hb.ne'
  have key : (a : ℚ) / (b : ℚ) + 1 / 2 = ((2 * a + b : ℕ) : ℚ) / ((2 * b : ℕ) : ℚ) := by
    push_cast
    field_simp
    ring
  rw [key, Nat.floor_div_nat, Nat.floor_natCast]

/-- The number of indices at which the student's answer strictly equals
the question's correctAnswer (the claim's reading of correctCount). -/
def specCorrectCount (questions answers : List Json) : Nat :=
  ((List.range questions.length).filter
    (fun i => jsEqOpt (answers.get? i)
      ((questions.get? i).bind (fun q => getField q "correctAnswer")))).length


theorem countP_gradeFrom (ans : List Json) (qs : List Json) : ∀ (n : Nat),
    (gradeFrom ans n qs).countP (fun e => e.isCorrect) =
    ((List.range qs.length).filter
      (fun i => jsEqOpt (ans.get? (n + i))
        ((qs.get? i).bind (fun q => getField q "correctAnswer")))).length := by
  induction qs with
  | nil => intro n; simp [gradeFrom]
  | cons q rest ih =>
    intro n
    have hmap : (List.range rest.length).filter
        ((fun i => jsEqOpt (ans.get? (n + i))
          (((q :: rest).get? i).bind (fun q => getField q "correctAnswer"))) ∘ Nat.succ) =
        (List.range rest.length).filter
        (fun i => jsEqOpt (ans.get? ((n + 1) + i))
          ((rest.get? i).bind (fun q => getField q "correctAnswer"))) := by
      apply List.filter_congr
      intro i _
      have hn : n + Nat.succ i = (n + 1) + i := by omega
      simp only [Function.comp, List.get?_cons_succ, hn]
    rw [gradeFrom, List.countP_cons, ih (n + 1)]
    rw [List.length_cons, List.range_succ_eq_map, List.filter_cons, List.filter_map, hmap]
    by_cases h0 : jsEqOpt ans[n]? (getField q "correctAnswer") = true
    · have hq : (gradeEntry n q ans).isCorrect = true := by
        simpa [gradeEntry] using h0
      simp [h0, hq]
    · have h0' : jsEqOpt ans[n]? (getField q "correctAnswer") = false := by
        simpa using h0
      have hq : (gradeEntry n q ans).isCorrect = false := by
        simpa [gradeEntry] using h0'
      simp [h0', hq]

/-- The counter accumulated by the grading pass equals the
specification's count of strictly matching indices. -/
theorem correctCount_eq_spec (questions answers : List Json) :
    correctCount questions answers = specCorrectCount questions answers := by
  rw [correctCount, gradeResults, specCorrectCount, countP_gradeFrom]
  simp

/-! ## Store lemmas -/

theorem lookup_map_overwrite (t : List (String × Quiz)) (id : String) (q : Quiz)
    (h : (t.lookup id).isSome) :
    (t.map (fun p => if p.1 = id then (id, q) else p)).lookup id = some q := by
  induction t with
  | nil => simp at h
  | cons p t iht =>
    obtain ⟨k, v⟩ := p
    by_cases hk : k = id
    · subst hk
      simp [List.lookup_cons]
    · rw [List.lookup_cons] at h
      rw [beq_false_of_ne (Ne.symm hk)] at h
      simp only [List.map_cons, if_neg hk, List.lookup_cons,
        beq_false_of_ne (Ne.symm hk)]
      exact iht h

theorem lookup_map_overwrite_ne (t : List (String × Quiz)) (id id' : String)
    (q : Quiz) (h : id' ≠ id) :
    (t.map (fun p => if p.1 = id then (id, q) else p)).lookup id' =
      t.lookup id' := by
  induction t with
  | nil => simp
  | cons p t iht =>
    obtain ⟨k, v⟩ := p
    by_cases hk : k = id
    · subst hk
      simp [List.lookup_cons, beq_false_of_ne h, iht]
    · simp [List.lookup_cons, hk, iht]

theorem storeLookup_set_self (store : Store) (id : String) (q : Quiz)
    (h : (storeLookup store id).isSome) :
    storeLookup (storeSet store id q) id = some q := by
  rw [storeLookup] at h
  rw [storeLookup, storeSet, if_pos h]
  exact lookup_map_overwrite store id q h

theorem storeLookup_set_ne (store : Store) (id id' : String) (q : Quiz)
    (h : id' ≠ id) :
    storeLookup (storeSet store id q) id' = storeLookup store id' := by
  rw [storeLookup, storeLookup, storeSet]
  by_cases hs : (store.lookup id).isSome
  · rw [if_pos hs]
    exact lookup_map_overwrite_ne store id id' q h
  · rw [if_neg hs, List.lookup_append]
    simp [List.lookup_cons, beq_false_of_ne h]

/-! ## Equations for the submit route -/

/-- A well-formed submit call against a stored quiz takes the success
path: it returns the grading payload and appends one submission. -/
theorem submitQuiz_found (store : Store) (qid name : String) (ans : List Json)
    (ts : String) (quiz : Quiz) (hqid : qid ≠ "") (hname : name ≠ "")
    (hq : storeLookup store qid = some quiz) :
    submitQuiz store (some qid) (some name) (some ans) ts =
      (SubmitOutcome.ok
        ⟨scoreOf (correctCount quiz.questions ans) quiz.questions.length,
          correctCount quiz.questions ans, quiz.questions.length,
          gradeResults quiz.questions ans⟩,
       storeSet store qid
         { quiz with submissions := quiz.submissions ++
             [⟨name, ans,
               scoreOf (correctCount quiz.questions ans) quiz.questions.length,
               correctCount quiz.questions ans, quiz.questions.length, ts⟩] }) := by
  simp only [submitQuiz, storeRead]
  rw [if_neg (by simp [hqid, hname]), hq]

/-- A well-formed submit call naming an id that is neither stored nor
an inherited Object.prototype property name returns 404 and leaves the
store untouched. -/
theorem submitQuiz_notFound (store : Store) (qid name : String)
    (ans : List Json) (ts : String) (hqid : qid ≠ "") (hname : name ≠ "")
    (hq : storeLookup store qid = none) (hproto : qid ∉ protoKeys) :
    submitQuiz store (some qid) (some name) (some ans) ts =
      (SubmitOutcome.notFound, store) := by
  simp only [submitQuiz, storeRead]
  rw [if_neg (by simp [hqid, hname]), hq, if_neg hproto]

/-! ## C1: score formula -/

/-- C1 (amended): for every submission graded by submit-quiz against an
existing quiz with at least one question, the returned and stored score
equals Math.round of the binary64 evaluation of
(correctCount / totalQuestions) * 100, where correctCount is the number
of indices at which the student's answer equals the question's
correct-answer index.  This agrees with exact round-half-up of
100*correctCount/totalQuestions except where the intermediate double
roundings land the value on the other side of a half-way point, as at
23 of 40. -/
theorem submit_score_double_rounding (store : Store) (qid name : String)
    (ans : List Json) (ts : String) (quiz : Quiz)
    (hqid : qid ≠ "") (hname : name ≠ "")
    (hq : storeLookup store qid = some quiz)
    (_hlen : 0 < quiz.questions.length) :
    ∃ (p : SubmitPayload) (store' : Store),
      submitQuiz store (some qid) (some name) (some ans) ts =
        (SubmitOutcome.ok p, store') ∧
      p.correctCount = specCorrectCount quiz.questions ans ∧
      p.totalQuestions = quiz.questions.length ∧
      p.score = scoreOf (specCorrectCount quiz.questions ans)
        quiz.questions.length ∧
      ∃ (quiz' : Quiz) (sub : Submission),
        storeLookup store' qid = some quiz' ∧
        quiz'.submissions = quiz.submissions ++ [sub] ∧
        sub.score = p.score := by
  rw [submitQuiz_found store qid name ans ts quiz hqid hname hq]
  refine ⟨_, _, rfl, correctCount_eq_spec _ _, rfl, ?_, ?_⟩
  · show scoreOf (correctCount quiz.questions ans) quiz.questions.length = _
    rw [correctCount_eq_spec]
  · refine ⟨_, _, storeLookup_set_self store qid _ (by rw [hq]; rfl), rfl, rfl⟩

/-- Scenario B answer key: a 5-question quiz with correct indices
0, 1, 1, 3, 2. -/
def scenarioBQuestions : List Json :=
  [Json.obj [("question", Json.str "B1"), ("correctAnswer", Json.num 0)],
   Json.obj [("question", Json.str "B2"), ("correctAnswer", Json.num 1)],
   Json.obj [("question", Json.str "B3"), ("correctAnswer", Json.num 1)],
   Json.obj [("question", Json.str "B4"), ("correctAnswer", Json.num 3)],
   Json.obj [("question", Json.str "B5"), ("correctAnswer", Json.num 2)]]

def scenarioBQuiz : Quiz :=
  ⟨"roomB", "topicB", scenarioBQuestions, [], "tB"⟩

def scenarioBStore : Store := [("quizB", scenarioBQuiz)]

/-- Scenario B student answers: 0, 1, 2, 3, 0 (three of them match). -/
def scenarioBAnswers : List Json :=
  [Json.num 0, Json.num 1, Json.num 2, Json.num 3, Json.num 0]

/-- Witness for submit_score_double_rounding: Scenario B, where the
graded call yields correctCount 3 and score 60 out of 5 questions (the
second conjunct evaluates the concrete score). -/
theorem submit_score_double_rounding_witness :
    (∃ (p : SubmitPayload) (store' : Store),
      submitQuiz scenarioBStore (some "quizB") (some "alice")
          (some scenarioBAnswers) "t0" = (SubmitOutcome.ok p, store') ∧
      p.correctCount = specCorrectCount scenarioBQuiz.questions scenarioBAnswers ∧
      p.totalQuestions = scenarioBQuiz.questions.length ∧
      p.score = scoreOf
        (specCorrectCount scenarioBQuiz.questions scenarioBAnswers)
        scenarioBQuiz.questions.length ∧
      ∃ (quiz' : Quiz) (sub : Submission),
        storeLookup store' "quizB" = some quiz' ∧
        quiz'.submissions = scenarioBQuiz.submissions ++ [sub] ∧
        sub.score = p.score) ∧
    (submitQuiz scenarioBStore (some "quizB") (some "alice")
        (some scenarioBAnswers) "t0").1 =
      SubmitOutcome.ok ⟨some 60, 3, 5,
        gradeResults scenarioBQuiz.questions scenarioBAnswers⟩ :=
  ⟨submit_score_double_rounding scenarioBStore "quizB" "alice" scenarioBAnswers
      "t0" scenarioBQuiz (by decide) (by decide) rfl (by decide),
   rfl⟩

/-- A 40-question quiz whose answer key is all zeros, and an answer
list matching on exactly the first 23 indices. -/
def scenarioCQuiz : Quiz :=
  ⟨"roomC", "topicC",
    List.replicate 40 (Json.obj [("correctAnswer", Json.num 0)]), [], "tC"⟩

def scenarioCStore : Store := [("quizC", scenarioCQuiz)]

def scenarioCAnswers : List Json :=
  List.replicate 23 (Json.num 0) ++ List.replicate 17 (Json.num 1)

/-- C1 counterexample to the original claim: with 23 correct answers
out of 40 questions the code returns and stores score 57, because the
binary64 value of (23/40)*100 is 57.49999999999999, while exact
round(100 * 23 / 40) = round(57.5) = 58. -/
theorem submit_score_exact_round_counterexample :
    (submitQuiz scenarioCStore (some "quizC") (some "carl")
        (some scenarioCAnswers) "tC1").1 =
      SubmitOutcome.ok ⟨some 57, 23, 40,
        gradeResults scenarioCQuiz.questions scenarioCAnswers⟩ ∧
    specRound (100 * (23 : ℚ) / (40 : ℚ)) = 58 := by
  constructor
  · rfl
  · unfold specRound
    rw [show 100 * (23 : ℚ) / 40 + 1 / 2 = ((58 : ℕ) : ℚ) by norm_num]
    exact Nat.floor_natCast 58

/-! ## C2: empty question list -/

def emptyQuiz : Quiz := ⟨"roomE", "topicE", [], [], "tE"⟩

def emptyQuizStore : Store := [("quizE", emptyQuiz)]

/-- C2 evaluated on the code: submitting against a stored quiz whose
questions sequence is empty computes Math.round((0/0) * 100) = NaN
(none), and that NaN is both returned and stored as the submission's
score; there is no totalQuestions == 0 guard forcing score = 0. -/
theorem submit_empty_questions_stores_NaN :
    (submitQuiz emptyQuizStore (some "quizE") (some "bob") (some []) "t1").1 =
      SubmitOutcome.ok ⟨none, 0, 0, []⟩ ∧
    storeLookup
        (submitQuiz emptyQuizStore (some "quizE") (some "bob") (some []) "t1").2
        "quizE" =
      some { emptyQuiz with submissions := [⟨"bob", [], none, 0, 0, "t1"⟩] } :=
  ⟨rfl, rfl⟩

/-! ## C6: unknown quiz id -/

/-- C6 counterexample to the original claim: "constructor" is not a
key of the empty store, yet a well-formed submit naming it does not
return NotFound: quizzes["constructor"] is the inherited constructor
function, the truthiness check passes, quiz.questions.map throws, and
the route answers with the generic 500 error. -/
theorem submit_proto_id_counterexample :
    storeLookup [] "constructor" = none ∧
    submitQuiz [] (some "constructor") (some "alice") (some []) "tP" =
      (SubmitOutcome.serverError, []) :=
  ⟨rfl, rfl⟩

/-- C6 (amended): for a well-formed submit call, an id that is neither
a stored key nor one of the Object.prototype property names fails with
NotFound and leaves the store entirely unchanged; an absent id that is
such an inherited name instead makes the handler throw and answer the
generic 500 error, also leaving the store unchanged; and when the id
is stored the call succeeds.  So NotFound and that 500 are the only
failure modes of a well-formed call, and no failure records a
submission. -/
theorem submit_unknown_id_behavior (store : Store) (qid name : String)
    (ans : List Json) (ts : String) (hqid : qid ≠ "") (hname : name ≠ "") :
    (storeLookup store qid = none → qid ∉ protoKeys →
      submitQuiz store (some qid) (some name) (some ans) ts =
        (SubmitOutcome.notFound, store)) ∧
    (storeLookup store qid = none → qid ∈ protoKeys →
      submitQuiz store (some qid) (some name) (some ans) ts =
        (SubmitOutcome.serverError, store)) ∧
    (∀ quiz : Quiz, storeLookup store qid = some quiz →
      ∃ (p : SubmitPayload) (store' : Store),
        submitQuiz store (some qid) (some name) (some ans) ts =
          (SubmitOutcome.ok p, store')) := by
  refine ⟨?_, ?_, ?_⟩
  · intro h hp
    exact submitQuiz_notFound store qid name ans ts hqid hname h hp
  · intro h hp
    simp only [submitQuiz, storeRead]
    rw [if_neg (by simp [hqid, hname]), h, if_pos hp]
  · intro quiz h
    exact ⟨_, _, submitQuiz_found store qid name ans ts quiz hqid hname h⟩

/-- Witness for submit_unknown_id_behavior: the id "missing" against
the empty store (it is not an inherited name, so the first conjunct
yields NotFound with the store unchanged). -/
theorem submit_unknown_id_behavior_witness :
    (storeLookup [] "missing" = none → "missing" ∉ protoKeys →
      submitQuiz [] (some "missing") (some "alice") (some []) "t2" =
        (SubmitOutcome.notFound, [])) ∧
    (storeLookup [] "missing" = none → "missing" ∈ protoKeys →
      submitQuiz [] (some "missing") (some "alice") (some []) "t2" =
        (SubmitOutcome.serverError, [])) ∧
    (∀ quiz : Quiz, storeLookup [] "missing" = some quiz →
      ∃ (p : SubmitPayload) (store' : Store),
        submitQuiz [] (some "missing") (some "alice") (some []) "t2" =
          (SubmitOutcome.ok p, store')) :=
  submit_unknown_id_behavior [] "missing" "alice" [] "t2"
    (by decide) (by decide)

/-! ## C7: missing and mismatching answers -/

theorem gradeFrom_get (ans : List Json) (qs : List Json) : ∀ (n i : Nat) (q : Json),
    qs.get? i = some q →
    (gradeFrom ans n qs).get? i = some (gradeEntry (n + i) q ans) := by
  induction qs with
  | nil => intro n i q h; simp at h
  | cons hd rest ih =>
    intro n i q h
    cases i with
    | zero =>
      simp only [List.get?_cons_zero, Option.some.injEq] at h
      subst h
      simp [gradeFrom]
    | succ i =>
      rw [gradeFrom]
      rw [List.get?_cons_succ] at h ⊢
      have := ih (n + 1) i q h
      have harg : n + 1 + i = n + (i + 1) := by omega
      rw [harg] at this
      exact this

/-- C7: in a well-formed submit against a stored quiz, any question
whose correctAnswer field is present is graded incorrect whenever the
student's answer entry is missing at that index or strictly differs
from the correct answer; a missing or out-of-range entry never makes
the call fail (the call still succeeds). -/
theorem submit_missing_or_wrong_incorrect (store : Store) (qid name : String)
    (ans : List Json) (ts : String) (quiz : Quiz)
    (hqid : qid ≠ "") (hname : name ≠ "")
    (hq : storeLookup store qid = some quiz)
    (i : Nat) (q : Json) (hqi : quiz.questions.get? i = some q)
    (ca : Json) (hca : getField q "correctAnswer" = some ca) :
    ∃ (p : SubmitPayload) (store' : Store),
      submitQuiz store (some qid) (some name) (some ans) ts =
        (SubmitOutcome.ok p, store') ∧
      ∃ e : GradeEntry, p.results.get? i = some e ∧
        (ans.get? i = none → e.isCorrect = false) ∧
        (∀ v : Json, ans.get? i = some v → jsPrimEq v ca = false →
          e.isCorrect = false) := by
  rw [submitQuiz_found store qid name ans ts quiz hqid hname hq]
  refine ⟨_, _, rfl, gradeEntry i q ans, ?_, ?_, ?_⟩
  · show (gradeResults quiz.questions ans).get? i = _
    have := gradeFrom_get ans quiz.questions 0 i q hqi
    simpa [gradeResults] using this
  · intro hnone
    rw [List.get?_eq_getElem?] at hnone
    simp [gradeEntry, hca, jsEqOpt, hnone]
  · intro v hv hne
    rw [List.get?_eq_getElem?] at hv
    simp [gradeEntry, hca, jsEqOpt, hv, hne]

def scenarioGQuiz : Quiz :=
  ⟨"roomG", "topicG", [Json.obj [("correctAnswer", Json.num 1)]], [], "tG"⟩

def scenarioGStore : Store := [("quizG", scenarioGQuiz)]

/-- Witness for submit_missing_or_wrong_incorrect: an empty answers
array against a one-question quiz; the call succeeds and grades the
question, whose answer entry is absent, as incorrect. -/
theorem submit_missing_or_wrong_incorrect_witness :
    ∃ (p : SubmitPayload) (store' : Store),
      submitQuiz scenarioGStore (some "quizG") (some "carol") (some []) "t3" =
        (SubmitOutcome.ok p, store') ∧
      ∃ e : GradeEntry, p.results.get? 0 = some e ∧
        (([] : List Json).get? 0 = none → e.isCorrect = false) ∧
        (∀ v : Json, ([] : List Json).get? 0 = some v →
          jsPrimEq v (Json.num 1) = false → e.isCorrect = false) :=
  submit_missing_or_wrong_incorrect scenarioGStore "quizG" "carol" [] "t3"
    scenarioGQuiz (by decide) (by decide) rfl 0 (Json.obj [("correctAnswer", Json.num 1)])
    rfl (Json.num 1) rfl

/-! ## GET /quiz-results: the aggregator -/

/-- JavaScript addition where either operand may be NaN. -/
def jsAdd : Option Nat → Option Nat → Option Nat
  | some a, some b => some (a + b)
  | _, _ => none

/-- scores.reduce((a, b) => a + b, 0): left fold starting from 0,
propagating NaN. -/
def jsSum (l : List (Option Nat)) : Option Nat :=
  l.foldl jsAdd (some 0)

/-- Math.round(x / n) with a possibly-NaN numerator; every use in the
code sits under the guard scores.length > 0, so n > 0 there (for n = 0
the code would produce NaN or Infinity, both modelled none). -/
def jsRoundDiv (x : Option Nat) (n : Nat) : Option Nat :=
  match x with
  | none => none
  | some s => if n = 0 then none else some ((2 * s + n) / (2 * n))

/-- Math.max over two values, NaN absorbing. -/
def jsMax2 : Option Nat → Option Nat → Option Nat
  | some a, some b => some (max a b)
  | _, _ => none

/-- Math.min over two values, NaN absorbing. -/
def jsMin2 : Option Nat → Option Nat → Option Nat
  | some a, some b => some (min a b)
  | _, _ => none

/-- Math.max(...scores): NaN as soon as one score is NaN.  The empty
case (-Infinity in JavaScript) is modelled none; it is unreachable
because the code guards it with scores.length > 0. -/
def jsMaxList : List (Option Nat) → Option Nat
  | [] => none
  | [x] => x
  | x :: rest => jsMax2 x (jsMaxList rest)

/-- Math.min(...scores), same conventions as jsMaxList. -/
def jsMinList : List (Option Nat) → Option Nat
  | [] => none
  | [x] => x
  | x :: rest => jsMin2 x (jsMinList rest)

/-- The stats block computed by GET /quiz-results/:quizId. -/
structure QuizStats where
  totalSubmissions : Nat
  averageScore : Option Nat
  highestScore : Option Nat
  lowestScore : Option Nat

/-- Statistics over the quiz's current submissions: count, rounded
mean (0 when there are no submissions), maximum and minimum score. -/
def quizStatsOf (submissions : List Submission) : QuizStats :=
  let scores := submissions.map (fun s => s.score)
  { totalSubmissions := submissions.length
    averageScore :=
      if 0 < scores.length then jsRoundDiv (jsSum scores) scores.length
      else some 0
    highestScore := if 0 < scores.length then jsMaxList scores else some 0
    lowestScore := if 0 < scores.length then jsMinList scores else some 0 }

/-- The 200 response body of GET /quiz-results/:quizId (questions are
returned with their answer keys, submissions verbatim). -/
structure ResultsPayload where
  quizId : String
  topic : String
  roomName : String
  createdAt : String
  questions : List Json
  submissions : List Submission
  stats : QuizStats

/-- Outcome of GET /quiz-results/:quizId: 404 for an undefined read,
500 when the read yields a truthy inherited non-quiz value (the
handler then throws on quiz.submissions.map), 200 otherwise. -/
inductive ResultsOutcome : Type
  | notFound : ResultsOutcome
  | serverError : ResultsOutcome
  | ok : ResultsPayload → ResultsOutcome

/-- GET /quiz-results/:quizId: a pure read of the store. -/
def getQuizResults (store : Store) (quizId : String) : ResultsOutcome :=
  match storeRead store quizId with
  | StoreRead.undef => ResultsOutcome.notFound
  | StoreRead.inherited => ResultsOutcome.serverError
  | StoreRead.quizVal quiz =>
    ResultsOutcome.ok
      ⟨quizId, quiz.topic, quiz.roomName, quiz.createdAt, quiz.questions,
        quiz.submissions, quizStatsOf quiz.submissions⟩

theorem getQuizResults_found (store : Store) (quizId : String) (quiz : Quiz)
    (hq : storeLookup store quizId = some quiz) :
    getQuizResults store quizId =
      ResultsOutcome.ok
        ⟨quizId, quiz.topic, quiz.roomName, quiz.createdAt, quiz.questions,
          quiz.submissions, quizStatsOf quiz.submissions⟩ := by
  simp only [getQuizResults, storeRead]
  rw [hq]

/-! ## C8: append-only submissions -/

/-- One submit request (the fields a student sends). -/
structure SubmitReq where
  studentName : String
  answers : List Json
  submittedAt : String

/-- A sequence of submit calls all naming the same quiz id. -/
def runSubmits (qid : String) (store : Store) (reqs : List SubmitReq) : Store :=
  reqs.foldl (fun st r =>
    (submitQuiz st (some qid) (some r.studentName) (some r.answers)
      r.submittedAt).2) store

/-- C8: submissions are append-only.  Each successful submit appends
exactly one record, no operation deletes or edits a record, other
quizzes are untouched, and after N successful submissions quiz-results
reports totalSubmissions = old count + N (so it never decreases). -/
theorem submissions_append_only (qid : String) (hqid : qid ≠ "") :
    ∀ (reqs : List SubmitReq), (∀ r ∈ reqs, r.studentName ≠ "") →
    ∀ (store : Store) (quiz : Quiz), storeLookup store qid = some quiz →
    ∃ (newSubs : List Submission) (quiz' : Quiz),
      storeLookup (runSubmits qid store reqs) qid = some quiz' ∧
      quiz'.questions = quiz.questions ∧
      quiz'.submissions = quiz.submissions ++ newSubs ∧
      newSubs.length = reqs.length ∧
      (∀ id', id' ≠ qid →
        storeLookup (runSubmits qid store reqs) id' = storeLookup store id') ∧
      ∃ rp : ResultsPayload,
        getQuizResults (runSubmits qid store reqs) qid = ResultsOutcome.ok rp ∧
        rp.stats.totalSubmissions = quiz.submissions.length + reqs.length := by
  intro reqs
  induction reqs with
  | nil =>
    intro _ store quiz hq
    refine ⟨[], quiz, hq, rfl, by simp, rfl, fun id' _ => rfl, ?_⟩
    exact ⟨_, getQuizResults_found store qid quiz hq, by simp [quizStatsOf]⟩
  | cons r rs ih =>
    intro hnames store quiz hq
    have hname : r.studentName ≠ "" := hnames r (List.mem_cons_self r rs)
    have hnames' : ∀ x ∈ rs, x.studentName ≠ "" := fun x hx =>
      hnames x (List.mem_cons_of_mem r hx)
    have hfound := submitQuiz_found store qid r.studentName r.answers
      r.submittedAt quiz hqid hname hq
    have hrun : runSubmits qid store (r :: rs) =
        runSubmits qid (storeSet store qid
          { quiz with submissions := quiz.submissions ++
              [⟨r.studentName, r.answers,
                scoreOf (correctCount quiz.questions r.answers)
                  quiz.questions.length,
                correctCount quiz.questions r.answers, quiz.questions.length,
                r.submittedAt⟩] }) rs := by
      rw [runSubmits, List.foldl_cons, hfound]
      rfl
    have h1 := storeLookup_set_self store qid
      { quiz with submissions := quiz.submissions ++
          [⟨r.studentName, r.answers,
            scoreOf (correctCount quiz.questions r.answers)
              quiz.questions.length,
            correctCount quiz.questions r.answers, quiz.questions.length,
            r.submittedAt⟩] } (by rw [hq]; rfl)
    obtain ⟨ns, quiz', ha, hque, hsub, hlen, hother, rp, hrp, hstat⟩ :=
      ih hnames' _ _ h1
    refine ⟨⟨r.studentName, r.answers,
        scoreOf (correctCount quiz.questions r.answers) quiz.questions.length,
        correctCount quiz.questions r.answers, quiz.questions.length,
        r.submittedAt⟩ :: ns, quiz', ?_, hque, ?_, ?_, ?_, rp, ?_, ?_⟩
    · rw [hrun]; exact ha
    · rw [hrun] at *
      rw [hsub]
      simp
    · simp [hlen]
    · intro id' hne
      rw [hrun, hother id' hne, storeLookup_set_ne store qid id' _ hne]
    · rw [hrun]; exact hrp
    · rw [hstat]
      simp only [List.length_append, List.length_cons, List.length_nil]
      omega

def scenarioNQuiz : Quiz := ⟨"roomN", "topicN", [], [], "tN"⟩

def scenarioNStore : Store := [("quizN", scenarioNQuiz)]

def scenarioNReqs : List SubmitReq := [⟨"dave", [], "t4"⟩, ⟨"erin", [], "t5"⟩]

/-- Witness for submissions_append_only: two successful submissions to
one stored quiz leave it with exactly two appended records. -/
theorem submissions_append_only_witness :
    ∃ (newSubs : List Submission) (quiz' : Quiz),
      storeLookup (runSubmits "quizN" scenarioNStore scenarioNReqs) "quizN" =
        some quiz' ∧
      quiz'.questions = scenarioNQuiz.questions ∧
      quiz'.submissions = scenarioNQuiz.submissions ++ newSubs ∧
      newSubs.length = scenarioNReqs.length ∧
      (∀ id', id' ≠ "quizN" →
        storeLookup (runSubmits "quizN" scenarioNStore scenarioNReqs) id' =
          storeLookup scenarioNStore id') ∧
      ∃ rp : ResultsPayload,
        getQuizResults (runSubmits "quizN" scenarioNStore scenarioNReqs)
          "quizN" = ResultsOutcome.ok rp ∧
        rp.stats.totalSubmissions =
          scenarioNQuiz.submissions.length + scenarioNReqs.length :=
  submissions_append_only "quizN" (by decide) scenarioNReqs (by decide)
    scenarioNStore scenarioNQuiz rfl

/-! ## POST /generate-quiz: fence stripping and JSON parsing -/

/-- The whitespace characters stripped by String.prototype.trim (the
ASCII ones; the ECMAScript set also holds rare Unicode space characters
that never occur in the data handled here). -/
def isJsWs (c : Char) : Bool :=
  c == ' ' || c == '\t' || c == '\n' || c == '\r' || c == '\x0b' || c == '\x0c'

/-- Drop trailing whitespace. -/
def rstripWs (l : List Char) : List Char :=
  (l.reverse.dropWhile isJsWs).reverse

/-- String.prototype.trim: drop whitespace from both ends. -/
def jsTrim (l : List Char) : List Char :=
  (rstripWs l).dropWhile isJsWs

/-- First global replace in /generate-quiz: delete every occurrence of
three backticks followed by the letters json and optionally one
directly following newline, scanning left to right without overlap
(the regex quantifier is greedy, so the newline form is preferred). -/
def stripJsonFence : List Char → List Char
  | '\x60' :: '\x60' :: '\x60' :: 'j' :: 's' :: 'o' :: 'n' :: '\n' :: rest =>
    stripJsonFence rest
  | '\x60' :: '\x60' :: '\x60' :: 'j' :: 's' :: 'o' :: 'n' :: rest =>
    stripJsonFence rest
  | c :: rest => c :: stripJsonFence rest
  | [] => []

/-- Second global replace: delete every occurrence of three backticks
optionally followed by one newline. -/
def stripBareFence : List Char → List Char
  | '\x60' :: '\x60' :: '\x60' :: '\n' :: rest => stripBareFence rest
  | '\x60' :: '\x60' :: '\x60' :: rest => stripBareFence rest
  | c :: rest => c :: stripBareFence rest
  | [] => []

/-- jsonText in /generate-quiz: the collaborator text trimmed, passed
through the two global replaces, and trimmed again. -/
def extractJsonText (content : String) : String :=
  String.mk (jsTrim (stripBareFence (stripJsonFence (jsTrim content.toList))))

/-- The whitespace JSON.parse accepts between tokens. -/
def isJsonWs (c : Char) : Bool :=
  c == ' ' || c == '\t' || c == '\n' || c == '\r'

def skipWs (l : List Char) : List Char := l.dropWhile isJsonWs

def hexVal (c : Char) : Option Nat :=
  if '0' ≤ c ∧ c ≤ '9' then some (c.toNat - '0'.toNat)
  else if 'a' ≤ c ∧ c ≤ 'f' then some (c.toNat - 'a'.toNat + 10)
  else if 'A' ≤ c ∧ c ≤ 'F' then some (c.toNat - 'A'.toNat + 10)
  else none

/-- The remainder of a JSON string literal after its opening quote,
with the JSON escape sequences (a u-escape yields the char with that
code unit; surrogate pairs are not recombined, which no string in the
quiz data needs). -/
def parseStringRest : List Char → Option (List Char × List Char)
  | '\"' :: rest => some ([], rest)
  | '\\' :: 'u' :: a :: b :: c :: d :: rest =>
    match hexVal a, hexVal b, hexVal c, hexVal d with
    | some ha, some hb, some hc, some hd =>
      (parseStringRest rest).map (fun p =>
        (Char.ofNat (((ha * 16 + hb) * 16 + hc) * 16 + hd) :: p.1, p.2))
    | _, _, _, _ => none
  | '\\' :: e :: rest =>
    match e with
    | '\"' => (parseStringRest rest).map (fun p => ('\"' :: p.1, p.2))
    | '\\' => (parseStringRest rest).map (fun p => ('\\' :: p.1, p.2))
    | '/' => (parseStringRest rest).map (fun p => ('/' :: p.1, p.2))
    | 'n' => (parseStringRest rest).map (fun p => ('\n' :: p.1, p.2))
    | 't' => (parseStringRest rest).map (fun p => ('\t' :: p.1, p.2))
    | 'r' => (parseStringRest rest).map (fun p => ('\r' :: p.1, p.2))
    | 'b' => (parseStringRest rest).map (fun p => ('\x08' :: p.1, p.2))
    | 'f' => (parseStringRest rest).map (fun p => ('\x0c' :: p.1, p.2))
    | _ => none
  | c :: rest => (parseStringRest rest).map (fun p => (c :: p.1, p.2))
  | [] => none

/-- Longest prefix of decimal digits. -/
def takeDigits : List Char → List Char × List Char
  | [] => ([], [])
  | c :: rest =>
    if '0' ≤ c ∧ c ≤ '9' then
      let p := takeDigits rest
      (c :: p.1, p.2)
    else ([], c :: rest)

def digitsToNat (l : List Char) : Nat :=
  l.foldl (fun n c => 10 * n + (c.toNat - '0'.toNat)) 0

/-- An optionally signed integer numeral.  The JSON number grammar also
has fraction and exponent parts; the quiz data only carries integers,
and a fractional numeral merely makes this model reject a text real
JSON.parse would accept. -/
def parseNumber : List Char → Option (Json × List Char)
  | '-' :: rest =>
    match takeDigits rest with
    | ([], _) => none
    | (ds, rest') => some (Json.num (-(digitsToNat ds : Int)), rest')
  | l =>
    match takeDigits l with
    | ([], _) => none
    | (ds, rest') => some (Json.num (digitsToNat ds), rest')

mutual

/-- One JSON value.  The fuel argument bounds the nesting and iteration
depth; jsonParse supplies more fuel than any input can consume. -/
def parseValue : Nat → List Char → Option (Json × List Char)
  | 0, _ => none
  | fuel + 1, l =>
    match skipWs l with
    | '\x7b' :: rest => parseObjBody fuel rest
    | '[' :: rest => parseArrBody fuel rest
    | '\"' :: rest =>
      (parseStringRest rest).map (fun p => (Json.str (String.mk p.1), p.2))
    | 't' :: 'r' :: 'u' :: 'e' :: rest => some (Json.bool true, rest)
    | 'f' :: 'a' :: 'l' :: 's' :: 'e' :: rest => some (Json.bool false, rest)
    | 'n' :: 'u' :: 'l' :: 'l' :: rest => some (Json.null, rest)
    | l' => parseNumber l'

/-- An object body after the opening brace. -/
def parseObjBody : Nat → List Char → Option (Json × List Char)
  | 0, _ => none
  | fuel + 1, l =>
    match skipWs l with
    | '\x7d' :: rest => some (Json.obj [], rest)
    | l' => parseMembers fuel l' []

/-- One or more comma-separated key-value members, then the closing
brace. -/
def parseMembers : Nat → List Char → List (String × Json) →
    Option (Json × List Char)
  | 0, _, _ => none
  | fuel + 1, l, acc =>
    match skipWs l with
    | '\"' :: rest =>
      match parseStringRest rest with
      | none => none
      | some (key, rest') =>
        match skipWs rest' with
        | ':' :: rest'' =>
          match parseValue fuel rest'' with
          | none => none
          | some (v, rest3) =>
            match skipWs rest3 with
            | ',' :: rest4 => parseMembers fuel rest4 (acc ++ [(String.mk key, v)])
            | '\x7d' :: rest4 => some (Json.obj (acc ++ [(String.mk key, v)]), rest4)
            | _ => none
        | _ => none
    | _ => none

/-- An array body after the opening bracket. -/
def parseArrBody : Nat → List Char → Option (Json × List Char)
  | 0, _ => none
  | fuel + 1, l =>
    match skipWs l with
    | ']' :: rest => some (Json.arr [], rest)
    | l' => parseElems fuel l' []

/-- One or more comma-separated elements, then the closing bracket. -/
def parseElems : Nat → List Char → List Json → Option (Json × List Char)
  | 0, _, _ => none
  | fuel + 1, l, acc =>
    match parseValue fuel l with
    | none => none
    | some (v, rest) =>
      match skipWs rest with
      | ',' :: rest' => parseElems fuel rest' (acc ++ [v])
      | ']' :: rest' => some (Json.arr (acc ++ [v]), rest')
      | _ => none

end

/-- The JavaScript builtin JSON.parse: one value, possibly surrounded
by whitespace, and nothing else. -/
def jsonParse (s : String) : Option Json :=
  match parseValue (2 * s.length + 2) s.toList with
  | some (v, rest) => if skipWs rest = [] then some v else none
  | none => none

/-- A question as exposed in the generate-quiz response: only an id,
the question text and the options (never the answer key). -/
structure PublicQuestion where
  id : Nat
  question : Option Json
  options : Option Json

/-- quizQuestions.map((q, idx) => (id idx, q.question, q.options)),
written as a recursion carrying the running index. -/
def publicFrom : Nat → List Json → List PublicQuestion
  | _, [] => []
  | idx, q :: rest =>
    ⟨idx, getField q "question", getField q "options"⟩ :: publicFrom (idx + 1) rest

/-- The question list of the generate-quiz response body. -/
def publicQuestions (qs : List Json) : List PublicQuestion :=
  publicFrom 0 qs

/-- The 200 response body of POST /generate-quiz. -/
structure GenPayload where
  quizId : String
  questions : List PublicQuestion

/-- Outcome of POST /generate-quiz: 400 when topic or roomName is
falsy, 500 invalidFormat when the collaborator text does not parse to
a JSON array, 200 otherwise.  (A failure of the collaborator call
itself is a distinct 500 outside this model: the response text is an
input here.) -/
inductive GenOutcome : Type
  | badRequest : GenOutcome
  | invalidFormat : GenOutcome
  | ok : GenPayload → GenOutcome

/-- POST /generate-quiz.  topic and roomName are the request fields
(none models an absent or falsy field); responseContent is the
collaborator's text; newQuizId and createdAt stand for the generated
id and timestamp.  A response that fails to parse as JSON after fence
stripping, or parses to a non-array, is rejected with invalidFormat
and nothing is stored; otherwise the parsed array is stored verbatim
as the quiz's questions. -/
def generateQuiz (store : Store) (topic roomName : Option String)
    (responseContent : String) (newQuizId createdAt : String) :
    GenOutcome × Store :=
  match topic, roomName with
  | some t, some r =>
    if t = "" ∨ r = "" then (GenOutcome.badRequest, store)
    else
      match jsonParse (extractJsonText responseContent) with
      | some (Json.arr qs) =>
        (GenOutcome.ok ⟨newQuizId, publicQuestions qs⟩,
         storeSet store newQuizId ⟨r, t, qs, [], createdAt⟩)
      | _ => (GenOutcome.invalidFormat, store)
  | _, _ => (GenOutcome.badRequest, store)

/-! ## Fence-stripping lemmas -/

theorem stripJsonFence_cons_ne (c : Char) (hc : c ≠ '\x60') (l : List Char) :
    stripJsonFence (c :: l) = c :: stripJsonFence l := by
  rw [stripJsonFence.eq_def]
  split
  · rename_i h
    injection h with h1 h2
    exact absurd h1 hc
  · rename_i h
    injection h with h1 h2
    exact absurd h1 hc
  · rename_i h
    injection h with h1 h2
    rw [h1, h2]
  · rename_i h
    exact absurd h (by simp)

theorem stripBareFence_cons_ne (c : Char) (hc : c ≠ '\x60') (l : List Char) :
    stripBareFence (c :: l) = c :: stripBareFence l := by
  rw [stripBareFence.eq_def]
  split
  · rename_i h
    injection h with h1 h2
    exact absurd h1 hc
  · rename_i h
    injection h with h1 h2
    exact absurd h1 hc
  · rename_i h
    injection h with h1 h2
    rw [h1, h2]
  · rename_i h
    exact absurd h (by simp)

theorem stripJsonFence_append_free : ∀ (l : List Char), '\x60' ∉ l →
    ∀ tail, stripJsonFence (l ++ tail) = l ++ stripJsonFence tail := by
  intro l
  induction l with
  | nil => intro _ tail; rfl
  | cons c l' ih =>
    intro hl tail
    have hc : c ≠ '\x60' := fun h => hl (by simp [h])
    have hl' : '\x60' ∉ l' := fun h => hl (List.mem_cons_of_mem c h)
    rw [List.cons_append, stripJsonFence_cons_ne c hc, ih hl' tail,
      List.cons_append]

theorem stripBareFence_append_free : ∀ (l : List Char), '\x60' ∉ l →
    ∀ tail, stripBareFence (l ++ tail) = l ++ stripBareFence tail := by
  intro l
  induction l with
  | nil => intro _ tail; rfl
  | cons c l' ih =>
    intro hl tail
    have hc : c ≠ '\x60' := fun h => hl (by simp [h])
    have hl' : '\x60' ∉ l' := fun h => hl (List.mem_cons_of_mem c h)
    rw [List.cons_append, stripBareFence_cons_ne c hc, ih hl' tail,
      List.cons_append]

theorem stripJsonFence_free (l : List Char) (hl : '\x60' ∉ l) :
    stripJsonFence l = l := by
  have h := stripJsonFence_append_free l hl []
  rw [List.append_nil, show stripJsonFence [] = [] from rfl,
    List.append_nil] at h
  exact h

theorem stripBareFence_free (l : List Char) (hl : '\x60' ∉ l) :
    stripBareFence l = l := by
  have h := stripBareFence_append_free l hl []
  rw [List.append_nil, show stripBareFence [] = [] from rfl,
    List.append_nil] at h
  exact h

theorem rstripWs_concat_nonws (xs : List Char) (a : Char)
    (ha : isJsWs a = false) : rstripWs (xs ++ [a]) = xs ++ [a] := by
  rw [rstripWs, List.reverse_append, List.reverse_singleton,
    List.singleton_append, List.dropWhile_cons_of_neg (by simp [ha])]
  simp

theorem jsTrim_cons_concat (a : Char) (ha : isJsWs a = false) (b : Char)
    (hb : isJsWs b = false) (m : List Char) :
    jsTrim (a :: (m ++ [b])) = a :: (m ++ [b]) := by
  rw [jsTrim, show a :: (m ++ [b]) = (a :: m) ++ [b] by simp,
    rstripWs_concat_nonws _ _ hb, List.cons_append,
    List.dropWhile_cons_of_neg (by simp [ha])]

theorem jsTrim_concat_ws (l : List Char) (a : Char) (ha : isJsWs a = true) :
    jsTrim (l ++ [a]) = jsTrim l := by
  rw [jsTrim, jsTrim, rstripWs, rstripWs, List.reverse_append,
    List.reverse_singleton, List.singleton_append,
    List.dropWhile_cons_of_pos (by simp [ha])]

/-! ## C9: code-fence wrapping -/

/-- C9: a collaborator response consisting of a payload without
backticks or surrounding whitespace, wrapped in json code-fence
markers, is stripped back to the payload before parsing, so it parses
exactly as the unwrapped payload does and generate-quiz produces the
same outcome and the same stored quiz for both. -/
theorem generate_strips_code_fences (s : String)
    (hbt : '\x60' ∉ s.toList) (htrim : jsTrim s.toList = s.toList) :
    extractJsonText ("\x60\x60\x60json\n" ++ s ++ "\n\x60\x60\x60") =
      extractJsonText s ∧
    extractJsonText s = s ∧
    ∀ (store : Store) (topic roomName : Option String)
      (newQuizId createdAt : String),
      generateQuiz store topic roomName
          ("\x60\x60\x60json\n" ++ s ++ "\n\x60\x60\x60") newQuizId createdAt =
        generateQuiz store topic roomName s newQuizId createdAt := by
  have hsplit : ("\x60\x60\x60json\n" ++ s ++ "\n\x60\x60\x60").toList =
      '\x60' :: '\x60' :: '\x60' :: 'j' :: 's' :: 'o' :: 'n' :: '\n' ::
        (s.toList ++ ('\n' :: '\x60' :: '\x60' ::['\x60'])) := by
    show ("\x60\x60\x60json\n" ++ s ++ "\n\x60\x60\x60").data = _
    rw [String.data_append, String.data_append, List.append_assoc]
    rfl
  have hA : jsTrim (('\x60' :: '\x60' :: '\x60' :: 'j' :: 's' :: 'o' :: 'n' :: '\n' ::
        (s.toList ++ ('\n' :: '\x60' :: '\x60' ::['\x60'])))) =
      '\x60' :: '\x60' :: '\x60' :: 'j' :: 's' :: 'o' :: 'n' :: '\n' ::
        (s.toList ++ ('\n' :: '\x60' :: '\x60' ::['\x60'])) := by
    have hshape : ('\x60' :: '\x60' :: '\x60' :: 'j' :: 's' :: 'o' :: 'n' :: '\n' ::
        (s.toList ++ ('\n' :: '\x60' :: '\x60' ::['\x60']))) =
        '\x60' :: (('\x60' :: '\x60' :: 'j' :: 's' :: 'o' :: 'n' :: '\n' ::
          (s.toList ++ ['\n','\x60','\x60'])) ++ ['\x60']) := by
      simp
    rw [hshape, jsTrim_cons_concat '\x60' rfl '\x60' rfl, ← hshape]
  have hB : stripJsonFence ('\x60' :: '\x60' :: '\x60' :: 'j' :: 's' :: 'o' :: 'n' :: '\n' ::
        (s.toList ++ ('\n' :: '\x60' :: '\x60' ::['\x60']))) =
      s.toList ++ ('\n' :: '\x60' :: '\x60' ::['\x60']) := by
    rw [show stripJsonFence ('\x60' :: '\x60' :: '\x60' :: 'j' :: 's' :: 'o' :: 'n' :: '\n' ::
        (s.toList ++ ('\n' :: '\x60' :: '\x60' ::['\x60']))) =
        stripJsonFence (s.toList ++ ('\n' :: '\x60' :: '\x60' ::['\x60'])) from rfl]
    rw [stripJsonFence_append_free s.toList hbt]
    rw [show stripJsonFence ('\n' :: '\x60' :: '\x60' ::['\x60']) =
        ('\n' :: '\x60' :: '\x60' ::['\x60']) from rfl]
  have hC : stripBareFence (s.toList ++ ('\n' :: '\x60' :: '\x60' ::['\x60'])) =
      s.toList ++ ['\n'] := by
    rw [stripBareFence_append_free s.toList hbt]
    rw [show stripBareFence ('\n' :: '\x60' :: '\x60' ::['\x60']) = ['\n'] from rfl]
  have hD : jsTrim (s.toList ++ ['\n']) = s.toList := by
    rw [jsTrim_concat_ws s.toList '\n' rfl, htrim]
  have hRHS : extractJsonText s = s := by
    rw [extractJsonText, htrim, stripJsonFence_free s.toList hbt,
      stripBareFence_free s.toList hbt, htrim]
    show String.mk s.data = s
    rfl
  have hLHS : extractJsonText
      ("\x60\x60\x60json\n" ++ s ++ "\n\x60\x60\x60") = extractJsonText s := by
    rw [extractJsonText, hsplit, hA, hB, hC, hD, hRHS]
    show String.mk s.data = s
    rfl
  refine ⟨hLHS, hRHS, ?_⟩
  intro store topic roomName newQuizId createdAt
  cases topic with
  | none => rfl
  | some t =>
    cases roomName with
    | none => rfl
    | some r =>
      simp only [generateQuiz]
      rw [hLHS]

/-- Witness for generate_strips_code_fences at the payload [1]. -/
theorem generate_strips_code_fences_witness :
    extractJsonText ("\x60\x60\x60json\n" ++ "[1]" ++ "\n\x60\x60\x60") =
      extractJsonText "[1]" ∧
    extractJsonText "[1]" = "[1]" ∧
    ∀ (store : Store) (topic roomName : Option String)
      (newQuizId createdAt : String),
      generateQuiz store topic roomName
          ("\x60\x60\x60json\n" ++ "[1]" ++ "\n\x60\x60\x60") newQuizId
          createdAt =
        generateQuiz store topic roomName "[1]" newQuizId createdAt :=
  generate_strips_code_fences "[1]" (by decide) (by decide)

/-! ## C3: invalid collaborator responses -/

/-- C3: when the fence-stripped collaborator text fails to parse as
JSON or parses to a value that is not an array, generate-quiz fails
with the invalid-format error and the store is returned unchanged: no
quiz record is created, no fallback is generated. -/
theorem generate_invalid_format_no_commit (store : Store) (t r : String)
    (responseContent : String) (newQuizId createdAt : String)
    (ht : t ≠ "") (hr : r ≠ "")
    (h : ∀ qs : List Json,
      jsonParse (extractJsonText responseContent) ≠ some (Json.arr qs)) :
    generateQuiz store (some t) (some r) responseContent newQuizId
        createdAt = (GenOutcome.invalidFormat, store) := by
  simp only [generateQuiz]
  rw [if_neg (by simp [ht, hr])]

/-- Witness for generate_invalid_format_no_commit: Scenario E, a JSON
object instead of an array, against the empty store. -/
theorem generate_invalid_format_no_commit_witness :
    generateQuiz [] (some "Photosynthesis") (some "room1")
        "\x7b\"a\": 1\x7d" "qidE" "tsE" = (GenOutcome.invalidFormat, []) :=
  generate_invalid_format_no_commit [] "Photosynthesis" "room1"
    "\x7b\"a\": 1\x7d" "qidE" "tsE" (by decide) (by decide)
    (by
      intro qs h
      rw [show jsonParse (extractJsonText "\x7b\"a\": 1\x7d") =
          some (Json.obj [("a", Json.num 1)]) from rfl] at h
      simp at h)

/-! ## C10: arrays are stored verbatim, unvalidated -/

/-- Success equation of /generate-quiz: any text parsing to a JSON
array is accepted, the array is stored verbatim and the public view of
its elements is returned. -/
theorem generateQuiz_array_eq (store : Store) (t r : String)
    (responseContent : String) (newQuizId createdAt : String)
    (ht : t ≠ "") (hr : r ≠ "") (qs : List Json)
    (h : jsonParse (extractJsonText responseContent) = some (Json.arr qs)) :
    generateQuiz store (some t) (some r) responseContent newQuizId
        createdAt =
      (GenOutcome.ok ⟨newQuizId, publicQuestions qs⟩,
       storeSet store newQuizId ⟨r, t, qs, [], createdAt⟩) := by
  simp only [generateQuiz]
  rw [if_neg (by simp [ht, hr]), h]

theorem storeLookup_set_fresh (store : Store) (id : String) (q : Quiz)
    (h : storeLookup store id = none) :
    storeLookup (storeSet store id q) id = some q := by
  rw [storeLookup] at h
  rw [storeLookup, storeSet, if_neg (by simp [h]), List.lookup_append, h]
  simp [List.lookup_cons]

/-- C10: a collaborator response parsing to any JSON array at all is
accepted: the array is stored verbatim as the quiz's questions with no
validation of its length or elements (empty arrays, elements missing
the question and options fields, and out-of-range correctAnswer values
included), and under a fresh id the stored quiz is retrievable with
exactly those questions. -/
theorem generate_accepts_any_array (store : Store) (t r : String)
    (responseContent : String) (newQuizId createdAt : String)
    (ht : t ≠ "") (hr : r ≠ "") (qs : List Json)
    (h : jsonParse (extractJsonText responseContent) = some (Json.arr qs)) :
    generateQuiz store (some t) (some r) responseContent newQuizId
        createdAt =
      (GenOutcome.ok ⟨newQuizId, publicQuestions qs⟩,
       storeSet store newQuizId ⟨r, t, qs, [], createdAt⟩) ∧
    (storeLookup store newQuizId = none →
      storeLookup
          (generateQuiz store (some t) (some r) responseContent newQuizId
            createdAt).2 newQuizId =
        some ⟨r, t, qs, [], createdAt⟩) := by
  have heq := generateQuiz_array_eq store t r responseContent newQuizId
    createdAt ht hr qs h
  refine ⟨heq, ?_⟩
  intro hfresh
  rw [heq]
  exact storeLookup_set_fresh store newQuizId _ hfresh

/-- Witness for generate_accepts_any_array: the empty array creates a
stored quiz with zero questions, and a singleton array whose element
has only an out-of-range correctAnswer creates a stored quiz with that
malformed question. -/
theorem generate_accepts_any_array_witness :
    (generateQuiz [] (some "topic0") (some "room0") "[]" "qz0" "ts0" =
      (GenOutcome.ok ⟨"qz0", publicQuestions []⟩,
       storeSet [] "qz0" ⟨"room0", "topic0", [], [], "ts0"⟩) ∧
     (storeLookup [] "qz0" = none →
      storeLookup
          (generateQuiz [] (some "topic0") (some "room0") "[]" "qz0"
            "ts0").2 "qz0" =
        some ⟨"room0", "topic0", [], [], "ts0"⟩)) ∧
    (generateQuiz [] (some "topic1") (some "room1")
        "[\x7b\"correctAnswer\": 7\x7d]" "qz1" "ts1" =
      (GenOutcome.ok ⟨"qz1",
          publicQuestions [Json.obj [("correctAnswer", Json.num 7)]]⟩,
       storeSet [] "qz1" ⟨"room1", "topic1",
          [Json.obj [("correctAnswer", Json.num 7)]], [], "ts1"⟩) ∧
     (storeLookup [] "qz1" = none →
      storeLookup
          (generateQuiz [] (some "topic1") (some "room1")
            "[\x7b\"correctAnswer\": 7\x7d]" "qz1" "ts1").2 "qz1" =
        some ⟨"room1", "topic1",
          [Json.obj [("correctAnswer", Json.num 7)]], [], "ts1"⟩)) :=
  ⟨generate_accepts_any_array [] "topic0" "room0" "[]" "qz0" "ts0"
      (by decide) (by decide) [] rfl,
   generate_accepts_any_array [] "topic1" "room1"
      "[\x7b\"correctAnswer\": 7\x7d]" "qz1" "ts1"
      (by decide) (by decide) [Json.obj [("correctAnswer", Json.num 7)]] rfl⟩

/-! ## C4: the response never carries the answer key -/

/-- Removing a property from a JSON object (identity on other values),
used to state that the public question view cannot depend on the
correctAnswer field. -/
def removeField (name : String) : Json → Json
  | Json.obj fields => Json.obj (fields.filter (fun p => p.1 != name))
  | j => j

theorem getField_removeField (j : Json) (name other : String)
    (h : other ≠ name) :
    getField (removeField name j) other = getField j other := by
  cases j with
  | obj fields =>
    simp only [removeField, getField]
    induction fields with
    | nil => rfl
    | cons p t ih =>
      obtain ⟨k, v⟩ := p
      by_cases hk : k = name
      · have hne : (k != name) = false := by simp [hk]
        rw [List.filter_cons]
        simp only [hne, Bool.false_eq_true, if_false]
        rw [ih, List.lookup_cons]
        have hok : (other == k) = false := beq_false_of_ne (by rw [hk]; exact h)
        rw [hok]
      · have hne : (k != name) = true := by simp [hk]
        rw [List.filter_cons]
        simp only [hne, if_true]
        rw [List.lookup_cons, List.lookup_cons, ih]
  | null => rfl
  | bool b => rfl
  | num n => rfl
  | str v => rfl
  | arr l => rfl

theorem publicFrom_removeField (qs : List Json) : ∀ n : Nat,
    publicFrom n (qs.map (removeField "correctAnswer")) = publicFrom n qs := by
  induction qs with
  | nil => intro n; rfl
  | cons q rest ih =>
    intro n
    simp only [List.map_cons, publicFrom]
    rw [getField_removeField q _ _ (by decide),
      getField_removeField q _ _ (by decide), ih (n + 1)]

/-- C4: a successful generate-quiz call returns for each question only
its index, its question field and its options field, and the response
is unchanged when every correctAnswer field is removed from the parsed
questions: the answer key never reaches the caller. -/
theorem generate_response_hides_answer_key (store : Store) (t r : String)
    (responseContent : String) (newQuizId createdAt : String)
    (ht : t ≠ "") (hr : r ≠ "") (qs : List Json)
    (h : jsonParse (extractJsonText responseContent) = some (Json.arr qs)) :
    ∃ p : GenPayload,
      (generateQuiz store (some t) (some r) responseContent newQuizId
        createdAt).1 = GenOutcome.ok p ∧
      p.questions = publicQuestions qs ∧
      publicQuestions (qs.map (removeField "correctAnswer")) = p.questions := by
  rw [generateQuiz_array_eq store t r responseContent newQuizId createdAt
    ht hr qs h]
  exact ⟨_, rfl, rfl, publicFrom_removeField qs 0⟩

/-- Witness for generate_response_hides_answer_key: a one-question
response whose element carries question, options and correctAnswer. -/
theorem generate_response_hides_answer_key_witness :
    ∃ p : GenPayload,
      (generateQuiz [] (some "topic4") (some "room4")
        "[\x7b\"question\": \"Q\", \"options\": [\"a\",\"b\",\"c\",\"d\"], \"correctAnswer\": 2\x7d]"
        "qz4" "ts4").1 = GenOutcome.ok p ∧
      p.questions = publicQuestions
        [Json.obj [("question", Json.str "Q"),
          ("options", Json.arr [Json.str "a", Json.str "b", Json.str "c",
            Json.str "d"]),
          ("correctAnswer", Json.num 2)]] ∧
      publicQuestions
        ([Json.obj [("question", Json.str "Q"),
          ("options", Json.arr [Json.str "a", Json.str "b", Json.str "c",
            Json.str "d"]),
          ("correctAnswer", Json.num 2)]].map (removeField "correctAnswer")) =
        p.questions :=
  generate_response_hides_answer_key [] "topic4" "room4"
    "[\x7b\"question\": \"Q\", \"options\": [\"a\",\"b\",\"c\",\"d\"], \"correctAnswer\": 2\x7d]"
    "qz4" "ts4" (by decide) (by decide)
    [Json.obj [("question", Json.str "Q"),
      ("options", Json.arr [Json.str "a", Json.str "b", Json.str "c",
        Json.str "d"]),
      ("correctAnswer", Json.num 2)]] rfl

/-! ## C5: result statistics -/

theorem jsSum_map_some (ns : List Nat) : jsSum (ns.map some) = some ns.sum := by
  have key : ∀ (ms : List Nat) (acc : Nat),
      List.foldl jsAdd (some acc) (ms.map some) = some (acc + ms.sum) := by
    intro ms
    induction ms with
    | nil => intro acc; simp
    | cons m rest ih =>
      intro acc
      simp only [List.map_cons, List.foldl_cons, jsAdd]
      rw [ih (acc + m), List.sum_cons]
      congr 1
      omega
  rw [jsSum, key ns 0]
  simp

theorem jsRoundDiv_some (S n : Nat) (hn : 0 < n) :
    jsRoundDiv (some S) n = some (specRound ((S : ℚ) / (n : ℚ))) := by
  simp only [jsRoundDiv]
  rw [if_neg (Nat.pos_iff_ne_zero.mp hn), natDiv_eq_specRound S n hn]

theorem jsMaxList_map_some : ∀ (ns : List Nat), ns ≠ [] →
    ∃ m, jsMaxList (ns.map some) = some m ∧ m ∈ ns ∧ ∀ x ∈ ns, x ≤ m := by
  intro ns
  induction ns with
  | nil => intro h; exact absurd rfl h
  | cons a rest ih =>
    intro _
    cases rest with
    | nil => exact ⟨a, rfl, by simp, by simp⟩
    | cons b rest' =>
      obtain ⟨m, hm, hmem, hbound⟩ := ih (by simp)
      refine ⟨max a m, ?_, ?_, ?_⟩
      · show jsMax2 (some a) (jsMaxList ((b :: rest').map some)) = some (max a m)
        rw [hm]
        rfl
      · cases max_choice a m with
        | inl h => rw [h]; exact List.mem_cons_self _ _
        | inr h => rw [h]; exact List.mem_cons_of_mem a hmem
      · intro x hx
        rcases List.mem_cons.mp hx with hxa | hx'
        · rw [hxa]; exact le_max_left a m
        · exact le_trans (hbound x hx') (le_max_right a m)

theorem jsMinList_map_some : ∀ (ns : List Nat), ns ≠ [] →
    ∃ m, jsMinList (ns.map some) = some m ∧ m ∈ ns ∧ ∀ x ∈ ns, m ≤ x := by
  intro ns
  induction ns with
  | nil => intro h; exact absurd rfl h
  | cons a rest ih =>
    intro _
    cases rest with
    | nil => exact ⟨a, rfl, by simp, by simp⟩
    | cons b rest' =>
      obtain ⟨m, hm, hmem, hbound⟩ := ih (by simp)
      refine ⟨min a m, ?_, ?_, ?_⟩
      · show jsMin2 (some a) (jsMinList ((b :: rest').map some)) = some (min a m)
        rw [hm]
        rfl
      · cases min_choice a m with
        | inl h => rw [h]; exact List.mem_cons_self _ _
        | inr h => rw [h]; exact List.mem_cons_of_mem a hmem
      · intro x hx
        rcases List.mem_cons.mp hx with hxa | hx'
        · rw [hxa]; exact min_le_left a m
        · exact le_trans (min_le_right a m) (hbound x hx')

/-- C5: for every stored quiz whose submissions carry real (non-NaN)
scores ns, quiz-results reports totalSubmissions = number of
submissions, averageScore = round of the mean of the stored scores
(0 if there are none), highestScore = a maximum stored score (0 if
none), lowestScore = a minimum stored score (0 if none), and returns
the submissions verbatim. -/
theorem quiz_results_stats (store : Store) (qid : String) (quiz : Quiz)
    (hq : storeLookup store qid = some quiz) (ns : List Nat)
    (hscores : quiz.submissions.map (fun s => s.score) = ns.map some) :
    ∃ rp : ResultsPayload,
      getQuizResults store qid = ResultsOutcome.ok rp ∧
      rp.submissions = quiz.submissions ∧
      rp.stats.totalSubmissions = quiz.submissions.length ∧
      (ns = [] →
        rp.stats.averageScore = some 0 ∧
        rp.stats.highestScore = some 0 ∧
        rp.stats.lowestScore = some 0) ∧
      (ns ≠ [] →
        rp.stats.averageScore =
          some (specRound ((ns.sum : ℚ) / (ns.length : ℚ))) ∧
        (∃ hi, rp.stats.highestScore = some hi ∧ hi ∈ ns ∧
          ∀ x ∈ ns, x ≤ hi) ∧
        (∃ lo, rp.stats.lowestScore = some lo ∧ lo ∈ ns ∧
          ∀ x ∈ ns, lo ≤ x)) := by
  rw [getQuizResults_found store qid quiz hq]
  refine ⟨_, rfl, rfl, rfl, ?_, ?_⟩
  · intro hnil
    subst hnil
    rw [List.map_nil] at hscores
    simp [quizStatsOf, hscores]
  · intro hne
    have hlen : 0 < ns.length := List.length_pos.mpr hne
    have hlen' : (quiz.submissions.map (fun s => s.score)).length = ns.length := by
      rw [hscores, List.length_map]
    constructor
    · show (if 0 < (quiz.submissions.map (fun s => s.score)).length then
          jsRoundDiv (jsSum (quiz.submissions.map (fun s => s.score)))
            (quiz.submissions.map (fun s => s.score)).length
        else some 0) = _
      rw [hlen', if_pos hlen, hscores, jsSum_map_some,
        jsRoundDiv_some ns.sum ns.length hlen]
    constructor
    · obtain ⟨hi, hhi, hmem, hbound⟩ := jsMaxList_map_some ns hne
      refine ⟨hi, ?_, hmem, hbound⟩
      show (if 0 < (quiz.submissions.map (fun s => s.score)).length then
          jsMaxList (quiz.submissions.map (fun s => s.score))
        else some 0) = some hi
      rw [hlen', if_pos hlen, hscores, hhi]
    · obtain ⟨lo, hlo, hmem, hbound⟩ := jsMinList_map_some ns hne
      refine ⟨lo, ?_, hmem, hbound⟩
      show (if 0 < (quiz.submissions.map (fun s => s.score)).length then
          jsMinList (quiz.submissions.map (fun s => s.score))
        else some 0) = some lo
      rw [hlen', if_pos hlen, hscores, hlo]

def scenarioFQuiz : Quiz :=
  ⟨"roomF", "topicF", [],
    [⟨"Alice", [], some 80, 4, 5, "tF1"⟩, ⟨"Bob", [], some 60, 3, 5, "tF2"⟩],
    "tF"⟩

def scenarioFStore : Store := [("quizF", scenarioFQuiz)]

/-- Witness for quiz_results_stats: Scenario F, submissions by Alice
(score 80) and Bob (score 60) give averageScore 70, highestScore 80,
lowestScore 60 (the concrete stats are checked by evaluation in the
second conjunct). -/
theorem quiz_results_stats_witness :
    (∃ rp : ResultsPayload,
      getQuizResults scenarioFStore "quizF" = ResultsOutcome.ok rp ∧
      rp.submissions = scenarioFQuiz.submissions ∧
      rp.stats.totalSubmissions = scenarioFQuiz.submissions.length ∧
      (([80, 60] : List Nat) = [] →
        rp.stats.averageScore = some 0 ∧
        rp.stats.highestScore = some 0 ∧
        rp.stats.lowestScore = some 0) ∧
      (([80, 60] : List Nat) ≠ [] →
        rp.stats.averageScore =
          some (specRound ((([80, 60] : List Nat).sum : ℚ) /
            (([80, 60] : List Nat).length : ℚ))) ∧
        (∃ hi, rp.stats.highestScore = some hi ∧ hi ∈ ([80, 60] : List Nat) ∧
          ∀ x ∈ ([80, 60] : List Nat), x ≤ hi) ∧
        (∃ lo, rp.stats.lowestScore = some lo ∧ lo ∈ ([80, 60] : List Nat) ∧
          ∀ x ∈ ([80, 60] : List Nat), lo ≤ x))) ∧
    getQuizResults scenarioFStore "quizF" =
      ResultsOutcome.ok ⟨"quizF", "topicF", "roomF", "tF", [],
        scenarioFQuiz.submissions, ⟨2, some 70, some 80, some 60⟩⟩ :=
  ⟨quiz_results_stats scenarioFStore "quizF" scenarioFQuiz rfl [80, 60] rfl,
   rfl⟩
